import Mathlib

/-!
Verification development for the parcel layout optimizer in `viz.py`.

The Python code works with shapely geometries over floating-point geographic
coordinates.  The shallow embedding below uses exact rationals (`ℚ`) and models
the geometric objects the pipeline actually builds:

* every placed building footprint is an axis-aligned rectangle created with
  `shapely.geometry.box`, modelled by `Viz.Box`;
* the parcel (`site_poly`) is modelled as a convex, counter-clockwise list of
  vertices, for which shapely's `contains` / `intersects` / negative `buffer`
  have exact rational characterisations (all concrete inputs used in theorems
  below are convex CCW polygons);
* red lines are modelled as axis-aligned segments, i.e. degenerate boxes;
* `cos(radians(lat))`, which the code applies to the parcel centroid latitude
  in `meters_to_degrees`, is transcendental, so the cosine value is passed to
  the pipeline as an explicit parameter `c` (the code computes one such value
  per request); concrete instances use a parcel mirror-symmetric about
  latitude 0, whose centroid latitude is exactly 0 and whose cosine is 1;
* the area of `buffer(rect, w)` is `rect.area + perimeter·w + K·w²` where `K`
  is π (or GEOS's polygonal approximation of it); `K` is likewise passed as an
  explicit parameter `cK`.
-/

set_option maxRecDepth 2000

deriving instance DecidableEq for Except

namespace Viz

/-- A geographic point: `x` is the longitude, `y` the latitude, in degrees. -/
structure Pt where
  x : ℚ
  y : ℚ
  deriving DecidableEq, Repr

/-- An axis-aligned rectangle, as produced by `shapely.geometry.box(minx, miny,
maxx, maxy)`. -/
structure Box where
  minx : ℚ
  miny : ℚ
  maxx : ℚ
  maxy : ℚ
  deriving DecidableEq, Repr

/-- Shapely `.area` of a (well-formed) box. -/
def Box.area (b : Box) : ℚ := (b.maxx - b.minx) * (b.maxy - b.miny)

/-- Shapely `b.buffer(-d)` for a box: each side moves inward by `d`.  (For
`d < 0` this is the outward buffer's bounding extent.)  A box shrunk past
collapse is an empty geometry; emptiness is checked at use sites. -/
def Box.shrink (b : Box) (d : ℚ) : Box := ⟨b.minx + d, b.miny + d, b.maxx - d, b.maxy - d⟩

/-- Shapely `a.intersects(b)` for two well-formed boxes (also valid when one of
them is a degenerate box, i.e. an axis-aligned segment): closed ranges overlap
on both axes; mere touching counts as intersecting, as in GEOS. -/
def Box.intersects (a b : Box) : Bool :=
  a.minx ≤ b.maxx && b.minx ≤ a.maxx && a.miny ≤ b.maxy && b.miny ≤ a.maxy

/-- Squared euclidean distance between two well-formed boxes (shapely
`a.distance(b)` squared). -/
def boxDistSq (a b : Box) : ℚ :=
  (max 0 (max (b.minx - a.maxx) (a.minx - b.maxx))) ^ 2 +
    (max 0 (max (b.miny - a.maxy) (a.miny - b.maxy))) ^ 2

/-- Cross product `(b - a) × (p - a)`: positive when `p` lies strictly to the
left of the directed edge `a → b`. -/
def cross (a b p : Pt) : ℚ := (b.x - a.x) * (p.y - a.y) - (b.y - a.y) * (p.x - a.x)

/-- The edge list of a closed polygon given by its vertex list. -/
def edges (P : List Pt) : List (Pt × Pt) := P.zip (P.rotate 1)

/-- Point-in-polygon for a convex CCW vertex list, boundary included (the set
shapely's closed polygon occupies). -/
def pointInConvex (P : List Pt) (p : Pt) : Bool :=
  (edges P).all fun ab => 0 ≤ cross ab.1 ab.2 p

/-- Shapely `site.contains(b)` for a convex CCW parcel `P` and a box `b`:
`contains` is false for an empty geometry (e.g. an over-shrunk negative
buffer), and otherwise holds iff all four corners lie in the closed polygon
(the interior-overlap condition of `contains` is automatic for a
positive-area box inside a convex polygon). -/
def siteContainsBox (P : List Pt) (b : Box) : Bool :=
  b.minx < b.maxx && b.miny < b.maxy &&
    pointInConvex P ⟨b.minx, b.miny⟩ && pointInConvex P ⟨b.maxx, b.miny⟩ &&
    pointInConvex P ⟨b.maxx, b.maxy⟩ && pointInConvex P ⟨b.minx, b.maxy⟩

/-- Clearance test for one polygon edge `a → b` and a point `p`: `p` lies on
the inner side of the edge at (perpendicular) distance at least `w ≥ 0`.
Stated multiplicatively (`w²·|b-a|² ≤ cross²`) so that it is exact over `ℚ`. -/
def edgeClearGe (a b p : Pt) (w : ℚ) : Bool :=
  0 ≤ cross a b p && w ^ 2 * ((b.x - a.x) ^ 2 + (b.y - a.y) ^ 2) ≤ (cross a b p) ^ 2

/-- Membership of `p` in the convex CCW polygon `P` eroded (negatively
buffered) by `w ≥ 0`: distance at least `w` to every edge, on the inside. -/
def pointClearConvex (P : List Pt) (p : Pt) (w : ℚ) : Bool :=
  (edges P).all fun ab => edgeClearGe ab.1 ab.2 p w

/-- Containment of the box `b` in the convex CCW polygon `P` eroded by
`w ≥ 0` — the formal reading of the spec's "rectangle lies within the parcel
eroded by margin". -/
def boxInErode (P : List Pt) (w : ℚ) (b : Box) : Bool :=
  b.minx < b.maxx && b.miny < b.maxy &&
    pointClearConvex P ⟨b.minx, b.miny⟩ w && pointClearConvex P ⟨b.maxx, b.miny⟩ w &&
    pointClearConvex P ⟨b.maxx, b.maxy⟩ w && pointClearConvex P ⟨b.minx, b.maxy⟩ w

/-- A green zone, shapely `rect.buffer(width)`: the rounded-corner Minkowski
sum of the core rectangle with a disk of radius `width ≥ 0`, kept symbolic as
core-plus-radius. -/
structure GreenZone where
  core : Box
  width : ℚ
  deriving DecidableEq, Repr

/-- Shapely `zone.intersects(b)` for a buffered rectangle and a box: the box
comes within distance `width` of the core rectangle. -/
def zoneIntersectsBox (z : GreenZone) (b : Box) : Bool :=
  boxDistSq z.core b ≤ z.width ^ 2

/-- Shapely `site.contains(zone)` for a convex CCW parcel: the rounded
rectangle lies inside iff every core corner keeps clearance `width` to every
edge, i.e. the core lies in the parcel eroded by `width`. -/
def siteContainsZone (P : List Pt) (z : GreenZone) : Bool :=
  boxInErode P z.width z.core

/-- Shapely `zone.area` for `rect.buffer(width)`: `rect.area + perimeter·width
+ cK·width²`, where `cK` is π (or GEOS's inscribed-polygon approximation of
it), supplied by the caller. -/
def zoneArea (z : GreenZone) (cK : ℚ) : ℚ :=
  z.core.area + 2 * ((z.core.maxx - z.core.minx) + (z.core.maxy - z.core.miny)) * z.width
    + cK * z.width ^ 2

/-- Twice the signed shoelace area of a closed polygon. -/
def shoelace (P : List Pt) : ℚ :=
  (edges P).foldl (fun acc ab => acc + (ab.1.x * ab.2.y - ab.2.x * ab.1.y)) 0

/-- Shapely `polygon.area` (always non-negative). -/
def polyArea (P : List Pt) : ℚ := |shoelace P| / 2

/-- Smallest x-coordinate of a vertex list (`site_poly.bounds[0]`); `0` for the
empty list, which a valid parcel never is. -/
def lonsMin : List Pt → ℚ
  | [] => 0
  | p :: ps => ps.foldl (fun m q => min m q.x) p.x

/-- Largest x-coordinate of a vertex list (`site_poly.bounds[2]`). -/
def lonsMax : List Pt → ℚ
  | [] => 0
  | p :: ps => ps.foldl (fun m q => max m q.x) p.x

/-- Smallest y-coordinate of a vertex list (`site_poly.bounds[1]`). -/
def latsMin : List Pt → ℚ
  | [] => 0
  | p :: ps => ps.foldl (fun m q => min m q.y) p.y

/-- Largest y-coordinate of a vertex list (`site_poly.bounds[3]`). -/
def latsMax : List Pt → ℚ
  | [] => 0
  | p :: ps => ps.foldl (fun m q => max m q.y) p.y

/-- The ceiling of a rational number, via floor division (computable and
kernel-reducible, unlike the `FloorRing` instance's `⌈⌉`). -/
def ratCeil (q : ℚ) : ℤ := -(Int.fdiv (-q.num) (q.den : ℤ))

/-- `numpy.arange(start, stop, step)` for a positive `step` over exact
rationals: `⌈(stop-start)/step⌉` evenly spaced values from `start`,
excluding `stop`.  (The code always calls it with the non-negative steps
`(bounds-extent)/20`; for a degenerate zero-extent parcel numpy would raise
where this returns `[]`.) -/
def arange (start stop step : ℚ) : List ℚ :=
  if 0 < step then
    (List.range (ratCeil ((stop - start) / step)).toNat).map fun i => start + (i : ℚ) * step
  else []

/-- The values of the `type` entry of `SECTION_TYPES` — a closed set of four
strings in the source (`living`, `parking`, `social`, `green`), modelled as an
enumeration. -/
inductive SType where
  | living
  | parking
  | social
  | green
  deriving DecidableEq, Repr

/-- One entry of `SECTION_TYPES`: width and height in meters, the `type`
string, and the `floors` flag.  (The `color` entry is display-only and is not
modelled.) -/
structure SectionType where
  w : ℚ
  h : ℚ
  ty : SType
  floors : Bool
  deriving DecidableEq, Repr

/-- A placed section (`section_data` in `try_place_combination`): its box,
its type string and its effective floor multiplier. -/
structure PlacedSection where
  poly : Box
  ty : SType
  floors : ℚ
  deriving DecidableEq, Repr

/-- The `params` dict assembled at module level in viz.py.  `margin`,
`spacing` and `green_buffer` are in meters; `red_lines` are axis-aligned
segments modelled as degenerate boxes. -/
structure Params where
  margin : ℚ
  spacing : ℚ
  floors : ℕ
  green_buffer : ℚ
  green_zones : Bool
  angles : List ℚ
  red_lines : List Box
  living_weight : ℚ
  green_weight : ℚ
  efficiency_weight : ℚ
  max_results : ℕ
  deriving DecidableEq, Repr

/-- One result record of `try_place_combination`. -/
structure Placement where
  position : Pt
  angle : ℚ
  sections : List PlacedSection
  green_zones : List GreenZone
  living_area : ℚ
  total_area : ℚ
  green_area : ℚ
  efficiency : ℚ
  score : ℚ
  deriving DecidableEq, Repr

/-- Python errors the pipeline can raise: `TypeError` (hashing an unhashable
dict) and `ValueError` (`max()` of an empty sequence). -/
inductive PyErr where
  | typeError
  | valueError
  deriving DecidableEq, Repr

/-- `meters_to_degrees(meters, lat)` from viz.py: `meters / (111320 *
cos(radians(lat)))`.  The cosine is transcendental, so its value `c` is the
explicit second argument; the code evaluates it once per request at the parcel
centroid latitude. -/
def meters_to_degrees (meters c : ℚ) : ℚ := meters / (111320 * c)

/-- `calculate_score` from viz.py, verbatim: note that the value returned is
`living_score + green_score + green_score` — the `efficiency_score` binding is
computed but unused. -/
def calculate_score (living_area green_area efficiency : ℚ) (params : Params) : ℚ :=
  let living_score := living_area * params.living_weight
  let green_score := green_area * params.green_weight
  let efficiency_score := efficiency * params.efficiency_weight
  living_score + green_score + green_score

/-- `is_valid_placement(poly, site_poly, existing_sections, margin, red_lines)`
from viz.py: the site must contain `poly.buffer(-margin/2)`, `poly` must not
intersect any red line, and `poly` must not intersect any already placed
section. -/
def is_valid_placement (poly : Box) (site_poly : List Pt) (existing_sections : List PlacedSection)
    (margin : ℚ) (red_lines : List Box) : Bool :=
  siteContainsBox site_poly (poly.shrink (margin / 2)) &&
    red_lines.all (fun line => !poly.intersects line) &&
    existing_sections.all (fun s => !poly.intersects s.poly)

/-- `validate_green_zones(green_zones, sections, site_poly)` from viz.py:
`unary_union(green_zones)` must not intersect any section's polygon, and the
site must contain the union.  A union intersects a box iff some member does;
the site contains the union iff the union is non-empty (shapely's `contains`
is false for the empty geometry produced by `unary_union([])`) and every
member is contained. -/
def validate_green_zones (green_zones : List GreenZone) (sections : List PlacedSection)
    (site_poly : List Pt) : Bool :=
  sections.all (fun s => !green_zones.any (fun z => zoneIntersectsBox z s.poly)) &&
    (!green_zones.isEmpty && green_zones.all (siteContainsZone site_poly))

/-- The orientation-dependent footprint of a section, in meters:
`section['size'] if angle == 0 else section['size'][::-1]`. -/
def orientedSize (angle : ℚ) (sec : SectionType) : ℚ × ℚ :=
  if angle = 0 then (sec.w, sec.h) else (sec.h, sec.w)

/-- The `for section in combination` loop of `try_place_combination`,
threading `current_x`, `placed_sections`, `green_zones` and `living_area`.
Returns `none` as soon as `is_valid_placement` fails. -/
def place_loop (site_poly : List Pt) (c : ℚ) (params : Params)
    (angle start_lat spacing_deg margin_deg green_buffer_deg : ℚ) :
    List SectionType → ℚ → List PlacedSection → List GreenZone → ℚ →
      Option (List PlacedSection × List GreenZone × ℚ)
  | [], _, placed, zones, living => some (placed, zones, living)
  | sec :: rest, current_x, placed, zones, living =>
    let w_deg := meters_to_degrees (orientedSize angle sec).1 c
    let h_deg := meters_to_degrees (orientedSize angle sec).2 c
    let section_poly : Box := ⟨current_x, start_lat, current_x + w_deg, start_lat + h_deg⟩
    if is_valid_placement section_poly site_poly placed margin_deg params.red_lines then
      let fl : ℚ := if sec.floors then (params.floors : ℚ) else 1
      let sd : PlacedSection := ⟨section_poly, sec.ty, fl⟩
      let living2 := if sec.ty = SType.living
        then living + section_poly.area * 111320 ^ 2 * fl else living
      let zones2 := if params.green_zones && (sec.ty == SType.living || sec.ty == SType.social)
        then zones ++ [⟨section_poly, green_buffer_deg⟩] else zones
      place_loop site_poly c params angle start_lat spacing_deg margin_deg green_buffer_deg
        rest (current_x + w_deg + spacing_deg) (placed ++ [sd]) zones2 living2
    else none

/-- `try_place_combination` from viz.py: run the placement loop, validate the
green zones when enabled, then assemble the result record with its metrics.
`c` is the centroid-latitude cosine, `cK` the circle-area coefficient of
`zoneArea`. -/
def try_place_combination (site_poly : List Pt) (c cK : ℚ) (combination : List SectionType)
    (angle start_lon start_lat spacing_deg margin_deg green_buffer_deg : ℚ)
    (params : Params) : Option Placement :=
  match place_loop site_poly c params angle start_lat spacing_deg margin_deg green_buffer_deg
      combination start_lon [] [] 0 with
  | none => none
  | some (placed, zones, living) =>
    if params.green_zones && !validate_green_zones zones placed site_poly then none
    else
      let total := placed.foldl (fun a s => a + s.poly.area * 111320 ^ 2 * s.floors) 0
      let eff := living / (polyArea site_poly * 111320 ^ 2)
      let green := zones.foldl (fun a z => a + zoneArea z cK) 0
      some { position := ⟨start_lon, start_lat⟩
             angle := angle
             sections := placed
             green_zones := zones
             living_area := living
             total_area := total
             green_area := green
             efficiency := eff
             score := calculate_score living green eff params }

/-- `generate_all_combinations(sections)` from viz.py.  The Python builds a
`set` of permutation tuples and tests `perm not in unique_combs`; section
descriptors are dicts, which are unhashable, so the very first membership test
raises `TypeError` whenever `sections` is non-empty.  For the empty list the
only permutation is the hashable empty tuple and `[[]]` is returned. -/
def generate_all_combinations (sections : List SectionType) :
    Except PyErr (List (List SectionType)) :=
  match sections with
  | [] => .ok [[]]
  | _ :: _ => .error .typeError

/-- All insertions of `x` into one list, in front-to-back order. -/
def insertEverywhere (x : α) : List α → List (List α)
  | [] => [[x]]
  | y :: ys => (x :: y :: ys) :: (insertEverywhere x ys).map (y :: ·)

/-- All permutations of a list (structurally recursive, so that concrete
instances evaluate). -/
def perms : List α → List (List α)
  | [] => [[]]
  | x :: xs => (perms xs).flatMap (insertEverywhere x)

/-- Modelled from the docstring of `generate_all_combinations` ("generation of
all unique combinations of sections"), which the shipped body contradicts by
raising `TypeError` (see `generate_all_combinations`): the distinct
permutations of the input list.  Python's `set` iteration order is
unspecified, so no particular order is mandated; this variant is used to
settle claims about the pipeline stages downstream of the defect. -/
def generate_all_combinations_fixed [DecidableEq α] (sections : List α) : List (List α) :=
  (perms sections).dedup

/-- The per-combination bounding dimensions computed in
`calculate_optimal_placements`: `total_width` (widths plus inter-section
spacing) and `max_height`.  Python's `max()` raises `ValueError` on the empty
combination. -/
def combo_dims (c spacing_deg angle : ℚ) :
    List SectionType → Except PyErr (ℚ × ℚ)
  | [] => .error .valueError
  | s :: rest =>
    .ok (((s :: rest).map fun t => meters_to_degrees (orientedSize angle t).1 c).sum
          + (((s :: rest).length - 1 : ℕ) : ℚ) * spacing_deg,
        rest.foldl (fun m t => max m (meters_to_degrees (orientedSize angle t).2 c))
          (meters_to_degrees (orientedSize angle s).2 c))

/-- Stable descending-by-score insertion: the new element goes after all
existing elements of score ≥ its own, matching the stable behaviour of
Python's `sorted(..., key=lambda x: -x['score'])`. -/
def insertDesc (p : Placement) : List Placement → List Placement
  | [] => [p]
  | q :: rest => if q.score < p.score then p :: q :: rest else q :: insertDesc p rest

/-- Stable insertion sort, descending by score: elementwise identical to the
output of Python's stable `sorted` with key `-score`. -/
def sortDesc (l : List Placement) : List Placement :=
  l.foldl (fun acc p => insertDesc p acc) []

/-- The two inner position loops of `calculate_optimal_placements` for one
`(angle, combination)` pair: try every `(lon, lat)`, append successes, and
return early (flag `true`) as soon as `len(placements) >= max_results` after
an append. -/
def search_positions (site_poly : List Pt) (c cK : ℚ) (params : Params)
    (combination : List SectionType) (angle spacing_deg margin_deg green_buffer_deg : ℚ) :
    List (ℚ × ℚ) → List Placement → List Placement × Bool
  | [], acc => (acc, false)
  | pos :: rest, acc =>
    match try_place_combination site_poly c cK combination angle pos.1 pos.2
        spacing_deg margin_deg green_buffer_deg params with
    | none => search_positions site_poly c cK params combination angle spacing_deg margin_deg
        green_buffer_deg rest acc
    | some p =>
      if params.max_results ≤ (acc ++ [p]).length then (acc ++ [p], true)
      else search_positions site_poly c cK params combination angle spacing_deg margin_deg
        green_buffer_deg rest (acc ++ [p])

/-- The outer `for angle / for combination` loops of
`calculate_optimal_placements`.  Each pair contributes its position grid; an
early return propagates unsorted, and the fall-through return is
`sorted(placements, key=-score)[:max_results]`. -/
def search_combos (site_poly : List Pt) (c cK : ℚ) (params : Params)
    (spacing_deg margin_deg green_buffer_deg min_lon min_lat max_lon max_lat lon_step lat_step : ℚ) :
    List (ℚ × List SectionType) → List Placement → Except PyErr (List Placement)
  | [], acc => .ok ((sortDesc acc).take params.max_results)
  | pair :: rest, acc =>
    match combo_dims c spacing_deg pair.1 pair.2 with
    | .error e => .error e
    | .ok dims =>
      let positions := (arange (min_lon + margin_deg) (max_lon - dims.1 - margin_deg) lon_step).flatMap
        fun lon => (arange (min_lat + margin_deg) (max_lat - dims.2 - margin_deg) lat_step).map
          fun lat => (lon, lat)
      match search_positions site_poly c cK params pair.2 pair.1 spacing_deg margin_deg
          green_buffer_deg positions acc with
      | (acc2, true) => .ok acc2
      | (acc2, false) => search_combos site_poly c cK params spacing_deg margin_deg
          green_buffer_deg min_lon min_lat max_lon max_lat lon_step lat_step rest acc2

/-- The body of `calculate_optimal_placements` once the combination list is
known: parameter conversion, grid steps, and the nested search loops. -/
def search_with_combinations (site_poly : List Pt) (all_combinations : List (List SectionType))
    (params : Params) (c cK : ℚ) : Except PyErr (List Placement) :=
  let margin_deg := meters_to_degrees params.margin c
  let spacing_deg := meters_to_degrees params.spacing c
  let green_buffer_deg := meters_to_degrees params.green_buffer c
  let min_lon := lonsMin site_poly
  let max_lon := lonsMax site_poly
  let min_lat := latsMin site_poly
  let max_lat := latsMax site_poly
  let lon_step := (max_lon - min_lon) / 20
  let lat_step := (max_lat - min_lat) / 20
  search_combos site_poly c cK params spacing_deg margin_deg green_buffer_deg
    min_lon min_lat max_lon max_lat lon_step lat_step
    (params.angles.flatMap fun angle => all_combinations.map fun comb => (angle, comb)) []

/-- `calculate_optimal_placements(site_poly, sections, params)` from viz.py:
generate the combination list (which raises `TypeError` for non-empty
`sections`, see `generate_all_combinations`), then run the search. -/
def calculate_optimal_placements (site_poly : List Pt) (sections : List SectionType)
    (params : Params) (c cK : ℚ) : Except PyErr (List Placement) :=
  match generate_all_combinations sections with
  | .error e => .error e
  | .ok all_combinations => search_with_combinations site_poly all_combinations params c cK

/-- `calculate_optimal_placements` with the combination generator replaced by
its docstring-modelled fixed variant (`generate_all_combinations_fixed`):
the pipeline as evidently intended, used to settle claims about the stages
downstream of the `TypeError` defect. -/
def calculate_optimal_placements_fixed (site_poly : List Pt) (sections : List SectionType)
    (params : Params) (c cK : ℚ) : Except PyErr (List Placement) :=
  search_with_combinations site_poly (generate_all_combinations_fixed sections) params c cK

/-- Request-level errors: `InvalidGeometry`-style input rejection at module
level, or a propagated Python exception caught by the `st.error` handler. -/
inductive RequestError where
  | invalidGeometry
  | pyError (e : PyErr)
  deriving DecidableEq, Repr

/-- The module-level input handling of viz.py around the pipeline call: a
parcel with fewer than 3 coordinate pairs is rejected immediately
(`st.error` + `st.stop`, lines 240-242) with no Layouts computed; otherwise
the pipeline runs and any Python exception is surfaced as an error by the
`except` handler around the button block. -/
def run_request (coords : List Pt) (sections : List SectionType) (params : Params)
    (c cK : ℚ) : Except RequestError (List Placement) :=
  if coords.length < 3 then .error .invalidGeometry
  else
    match calculate_optimal_placements coords sections params c cK with
    | .error e => .error (.pyError e)
    | .ok placements => .ok placements

/-- A point in local planar coordinates (meters). -/
structure PlanarPt where
  x : ℚ
  y : ℚ
  deriving DecidableEq, Repr

/-- Modelled from the spec: `toPlanar(point, referenceLatitude)` — the local
equirectangular approximation scaled at the parcel centroid's latitude.  No
such function exists in src/ (the source only has the degree-ward direction
`meters_to_degrees`, which it applies to both axes with the centroid cosine
`c`), so the planar-ward map is the spec-mandated inverse of that scale:
multiply both coordinates by `111320·c`. -/
def toPlanar (p : Pt) (c : ℚ) : PlanarPt :=
  ⟨p.x * (111320 * c), p.y * (111320 * c)⟩

/-- Modelled from the spec: `toGeographic(point, referenceLatitude)` — the
geographic-ward direction, which is exactly the source's `meters_to_degrees`
applied to both planar coordinates with the same reference cosine `c`. -/
def toGeographic (q : PlanarPt) (c : ℚ) : Pt :=
  ⟨meters_to_degrees q.x c, meters_to_degrees q.y c⟩

/-! Concrete inputs used by witnesses and counterexamples.  All parcels are
convex, counter-clockwise, and mirror-symmetric about latitude 0, so their
centroid latitude is exactly 0 and the centroid cosine is exactly 1; `mDeg`
is one meter expressed in degrees at that latitude, making every metric
quantity come out as a small rational. -/

/-- One meter in longitude/latitude degrees at latitude 0: `1/111320`. -/
def mDeg : ℚ := 1 / 111320

/-- The section "Жилой S" of `SECTION_TYPES`: 18×18 m, type `living`,
`floors = True`. -/
def zhS : SectionType := ⟨18, 18, SType.living, true⟩

/-- The section "Паркинг" of `SECTION_TYPES`: 20×15 m, type `parking`,
`floors = False`. -/
def parkP : SectionType := ⟨20, 15, SType.parking, false⟩

/-- A convex hexagonal parcel (meters-as-degrees via `mDeg`): a 50×60 m
rectangle with its two right corners cut by 45° edges.  Mirror-symmetric
about latitude 0, so the centroid cosine is exactly 1. -/
def hexSite : List Pt :=
  [⟨0, -30 * mDeg⟩, ⟨30 * mDeg, -30 * mDeg⟩, ⟨50 * mDeg, -10 * mDeg⟩,
   ⟨50 * mDeg, 10 * mDeg⟩, ⟨30 * mDeg, 30 * mDeg⟩, ⟨0, 30 * mDeg⟩]

/-- A 40×40 m square parcel centred on latitude 0. -/
def sqSite : List Pt :=
  [⟨0, -20 * mDeg⟩, ⟨40 * mDeg, -20 * mDeg⟩, ⟨40 * mDeg, 20 * mDeg⟩, ⟨0, 20 * mDeg⟩]

/-- A 70×70 m square parcel centred on latitude 0. -/
def sq70Site : List Pt :=
  [⟨0, -35 * mDeg⟩, ⟨70 * mDeg, -35 * mDeg⟩, ⟨70 * mDeg, 35 * mDeg⟩, ⟨0, 35 * mDeg⟩]

/-- A 10×10 m square parcel centred on latitude 0 — too small for any module,
so zero feasible placements exist. -/
def tinySite : List Pt :=
  [⟨0, -5 * mDeg⟩, ⟨10 * mDeg, -5 * mDeg⟩, ⟨10 * mDeg, 5 * mDeg⟩, ⟨0, 5 * mDeg⟩]

/-- The module-level parameter set of viz.py with its default slider values:
margin 10 m, spacing 5 m, 5 floors, green buffer 0 (green zones disabled),
north-south orientation, no red lines, weights (0.5, 0.3, 0.2),
`max_results = 15`. -/
def baseParams : Params :=
  { margin := 10, spacing := 5, floors := 5, green_buffer := 0, green_zones := false,
    angles := [0], red_lines := [], living_weight := 1 / 2, green_weight := 3 / 10,
    efficiency_weight := 1 / 5, max_results := 15 }

/-- `baseParams` with a `max_results` large enough that no early return
triggers and the full sorted list is returned. -/
def wideParams : Params := { baseParams with max_results := 1000 }

/-- `baseParams` with `max_results = 1`, forcing the early return. -/
def oneParams : Params := { baseParams with max_results := 1 }

/-- `baseParams` with a positive green buffer (5 m), hence
`green_zones = green_buffer > 0 = true`, as the module level sets it. -/
def greenParams : Params := { baseParams with green_buffer := 5, green_zones := true }

/-- The compatibility relation of the spec's no-overlap invariant for two
placed sections, with the spacing already converted to degrees: the boxes do
not intersect and their squared distance is at least `spacing_deg²`.  The
relation is symmetric (`Box.intersects_comm`, `boxDistSq_comm`), so proving it
`List.Pairwise` establishes it for every unordered pair. -/
def sectionsCompatible (spacing_deg : ℚ) (p q : PlacedSection) : Prop :=
  p.poly.intersects q.poly = false ∧ spacing_deg ^ 2 ≤ boxDistSq p.poly q.poly

instance (spacing_deg : ℚ) (p q : PlacedSection) :
    Decidable (sectionsCompatible spacing_deg p q) := by
  unfold sectionsCompatible
  exact instDecidableAnd

/-! Helper lemmas. -/

theorem Box.intersects_comm (a b : Box) : a.intersects b = b.intersects a := by
  simp only [Box.intersects]
  rw [Bool.eq_iff_iff]
  simp only [Bool.and_eq_true, decide_eq_true_eq]
  tauto

theorem boxDistSq_comm (a b : Box) : boxDistSq a b = boxDistSq b a := by
  simp only [boxDistSq]
  rw [max_comm (b.minx - a.maxx) (a.minx - b.maxx), max_comm (b.miny - a.maxy) (a.miny - b.maxy)]

theorem boxDistSq_self (b : Box) (h1 : b.minx ≤ b.maxx) (h2 : b.miny ≤ b.maxy) :
    boxDistSq b b = 0 := by
  simp only [boxDistSq]
  rw [max_self, max_self]
  have e1 : max 0 (b.minx - b.maxx) = 0 := max_eq_left (by linarith)
  have e2 : max 0 (b.miny - b.maxy) = 0 := max_eq_left (by linarith)
  rw [e1, e2]
  ring

theorem is_valid_placement_contains {poly : Box} {site_poly : List Pt}
    {existing_sections : List PlacedSection} {margin : ℚ} {red_lines : List Box}
    (h : is_valid_placement poly site_poly existing_sections margin red_lines = true) :
    siteContainsBox site_poly (poly.shrink (margin / 2)) = true := by
  simp only [is_valid_placement, Bool.and_eq_true] at h
  exact h.1.1

theorem is_valid_placement_no_overlap {poly : Box} {site_poly : List Pt}
    {existing_sections : List PlacedSection} {margin : ℚ} {red_lines : List Box}
    (h : is_valid_placement poly site_poly existing_sections margin red_lines = true) :
    ∀ s ∈ existing_sections, poly.intersects s.poly = false := by
  simp only [is_valid_placement, Bool.and_eq_true, List.all_eq_true] at h
  intro s hs
  simpa using h.2 s hs

theorem mem_insertDesc {x p : Placement} : ∀ {l : List Placement},
    x ∈ insertDesc p l → x = p ∨ x ∈ l := by
  intro l
  induction l with
  | nil => intro h; simpa [insertDesc] using h
  | cons q rest ih =>
    intro h
    simp only [insertDesc] at h
    split at h
    · rcases List.mem_cons.1 h with h1 | h1
      · exact .inl h1
      · exact .inr h1
    · rcases List.mem_cons.1 h with h1 | h1
      · subst h1; exact .inr (List.mem_cons_self x rest)
      · rcases ih h1 with h2 | h2
        · exact .inl h2
        · exact .inr (List.mem_cons_of_mem q h2)

theorem mem_foldl_insertDesc {x : Placement} : ∀ {l : List Placement} (init : List Placement),
    x ∈ List.foldl (fun acc p => insertDesc p acc) init l → x ∈ init ∨ x ∈ l := by
  intro l
  induction l with
  | nil => intro init h; exact .inl h
  | cons p rest ih =>
    intro init h
    rcases ih (insertDesc p init) h with h1 | h1
    · rcases mem_insertDesc h1 with h2 | h2
      · exact .inr (h2 ▸ List.mem_cons_self p rest)
      · exact .inl h2
    · exact .inr (List.mem_cons_of_mem p h1)

theorem mem_of_mem_sortDesc {x : Placement} {l : List Placement}
    (h : x ∈ sortDesc l) : x ∈ l := by
  rcases mem_foldl_insertDesc [] h with h1 | h1
  · cases h1
  · exact h1

theorem insertEverywhere_mem {x a : α} : ∀ {m l : List α},
    l ∈ insertEverywhere x m → a ∈ l → a = x ∨ a ∈ m := by
  intro m
  induction m with
  | nil =>
    intro l hl ha
    simp only [insertEverywhere, List.mem_singleton] at hl
    subst hl
    simpa using ha
  | cons y ys ih =>
    intro l hl ha
    simp only [insertEverywhere, List.mem_cons, List.mem_map] at hl
    rcases hl with hl | ⟨l2, hl2, rfl⟩
    · subst hl
      rcases List.mem_cons.1 ha with rfl | ha2
      · exact .inl rfl
      · exact .inr ha2
    · rcases List.mem_cons.1 ha with rfl | ha2
      · exact .inr (List.mem_cons_self a ys)
      · rcases ih hl2 ha2 with h2 | h2
        · exact .inl h2
        · exact .inr (List.mem_cons_of_mem y h2)

theorem perms_mem {a : α} : ∀ {xs l : List α}, l ∈ perms xs → a ∈ l → a ∈ xs := by
  intro xs
  induction xs with
  | nil =>
    intro l hl ha
    simp only [perms, List.mem_singleton] at hl
    subst hl
    cases ha
  | cons x rest ih =>
    intro l hl ha
    simp only [perms, List.mem_flatMap] at hl
    rcases hl with ⟨m, hm, hins⟩
    rcases insertEverywhere_mem hins ha with rfl | h2
    · exact List.mem_cons_self a rest
    · exact List.mem_cons_of_mem x (ih hm h2)

theorem generate_all_combinations_fixed_mem [DecidableEq α] {a : α} {xs l : List α}
    (hl : l ∈ generate_all_combinations_fixed xs) (ha : a ∈ l) : a ∈ xs :=
  perms_mem (List.mem_dedup.1 hl) ha

theorem place_loop_contains (site_poly : List Pt) (c : ℚ) (params : Params)
    (angle start_lat spacing_deg margin_deg green_buffer_deg : ℚ) :
    ∀ (rem : List SectionType) (cx : ℚ) (placed : List PlacedSection)
      (zones : List GreenZone) (la : ℚ) (out : List PlacedSection × List GreenZone × ℚ),
      place_loop site_poly c params angle start_lat spacing_deg margin_deg green_buffer_deg
          rem cx placed zones la = some out →
      (∀ sd ∈ placed, siteContainsBox site_poly (sd.poly.shrink (margin_deg / 2)) = true) →
      ∀ sd ∈ out.1, siteContainsBox site_poly (sd.poly.shrink (margin_deg / 2)) = true := by
  intro rem
  induction rem with
  | nil =>
    intro cx placed zones la out h hacc
    simp only [place_loop, Option.some.injEq] at h
    subst h
    exact hacc
  | cons sec rest ih =>
    intro cx placed zones la out h hacc
    simp only [place_loop] at h
    split at h
    · rename_i hvalid
      refine ih _ _ _ _ out h ?_
      intro sd hsd
      rcases List.mem_append.1 hsd with hsd | hsd
      · exact hacc sd hsd
      · rcases List.mem_singleton.1 hsd with rfl
        exact is_valid_placement_contains hvalid
    · cases h

theorem try_place_combination_contains (site_poly : List Pt) (c cK : ℚ)
    (combination : List SectionType)
    (angle start_lon start_lat spacing_deg margin_deg green_buffer_deg : ℚ)
    (params : Params) (p : Placement)
    (h : try_place_combination site_poly c cK combination angle start_lon start_lat
        spacing_deg margin_deg green_buffer_deg params = some p) :
    ∀ sd ∈ p.sections, siteContainsBox site_poly (sd.poly.shrink (margin_deg / 2)) = true := by
  unfold try_place_combination at h
  split at h
  · cases h
  · rename_i placed zones living heq
    split at h
    · cases h
    · simp only [Option.some.injEq] at h
      subst h
      intro sd hsd
      exact place_loop_contains site_poly c params angle start_lat spacing_deg margin_deg
        green_buffer_deg combination start_lon [] [] 0 ⟨placed, zones, living⟩ heq
        (by intro sd h2; cases h2) sd hsd

theorem search_positions_prop (site_poly : List Pt) (c cK : ℚ) (params : Params)
    (combination : List SectionType) (angle spacing_deg margin_deg green_buffer_deg : ℚ)
    (Q : Placement → Prop)
    (hstep : ∀ lon lat p, try_place_combination site_poly c cK combination angle lon lat
        spacing_deg margin_deg green_buffer_deg params = some p → Q p) :
    ∀ (positions : List (ℚ × ℚ)) (acc : List Placement) (res : List Placement × Bool),
      (∀ l ∈ acc, Q l) →
      search_positions site_poly c cK params combination angle spacing_deg margin_deg
        green_buffer_deg positions acc = res →
      ∀ l ∈ res.1, Q l := by
  intro positions
  induction positions with
  | nil =>
    intro acc res hacc hres
    simp only [search_positions] at hres
    subst hres
    exact hacc
  | cons pos rest ih =>
    intro acc res hacc hres
    simp only [search_positions] at hres
    split at hres
    · exact ih acc res hacc hres
    · rename_i p htry
      split at hres
      · subst hres
        intro l hl
        rcases List.mem_append.1 hl with h1 | h1
        · exact hacc l h1
        · rcases List.mem_singleton.1 h1 with rfl
          exact hstep pos.1 pos.2 l htry
      · refine ih (acc ++ [p]) res ?_ hres
        intro x hx
        rcases List.mem_append.1 hx with h1 | h1
        · exact hacc x h1
        · rcases List.mem_singleton.1 h1 with rfl
          exact hstep pos.1 pos.2 x htry

theorem search_combos_prop (site_poly : List Pt) (c cK : ℚ) (params : Params)
    (spacing_deg margin_deg green_buffer_deg min_lon min_lat max_lon max_lat lon_step lat_step : ℚ)
    (Q : Placement → Prop) :
    ∀ (pairs : List (ℚ × List SectionType)) (acc : List Placement) (ls : List Placement),
      (∀ angle comb, (angle, comb) ∈ pairs → ∀ lon lat p,
        try_place_combination site_poly c cK comb angle lon lat spacing_deg margin_deg
          green_buffer_deg params = some p → Q p) →
      (∀ l ∈ acc, Q l) →
      search_combos site_poly c cK params spacing_deg margin_deg green_buffer_deg
        min_lon min_lat max_lon max_lat lon_step lat_step pairs acc = .ok ls →
      ∀ l ∈ ls, Q l := by
  intro pairs
  induction pairs with
  | nil =>
    intro acc ls _ hacc h l hl
    simp only [search_combos, Except.ok.injEq] at h
    subst h
    exact hacc l (mem_of_mem_sortDesc (List.take_subset _ _ hl))
  | cons pair rest ih =>
    intro acc ls hstep hacc h l hl
    simp only [search_combos] at h
    split at h
    · cases h
    · split at h
      · rename_i acc2 hsp
        simp only [Except.ok.injEq] at h
        subst h
        exact search_positions_prop site_poly c cK params pair.2 pair.1 spacing_deg
          margin_deg green_buffer_deg Q
          (fun lon lat p hp => hstep pair.1 pair.2 (by simp) lon lat p hp) _ acc _
          hacc hsp l hl
      · rename_i acc2 hsp
        have hall := search_positions_prop site_poly c cK params pair.2 pair.1 spacing_deg
          margin_deg green_buffer_deg Q
          (fun lon lat p hp => hstep pair.1 pair.2 (by simp) lon lat p hp) _ acc _
          hacc hsp
        refine ih acc2 ls ?_ hall h l hl
        intro angle comb hcomb
        exact hstep angle comb (List.mem_cons_of_mem pair hcomb)

theorem siteContainsBox_wellformed {P : List Pt} {b : Box} (h : siteContainsBox P b = true) :
    b.minx < b.maxx ∧ b.miny < b.maxy := by
  simp only [siteContainsBox, Bool.and_eq_true, decide_eq_true_eq] at h
  exact ⟨h.1.1.1.1.1, h.1.1.1.1.2⟩

theorem place_loop_pairwise (site_poly : List Pt) (c : ℚ) (params : Params)
    (angle start_lat spacing_deg margin_deg green_buffer_deg : ℚ)
    (hsp : 0 ≤ spacing_deg) :
    ∀ (rem : List SectionType) (cx : ℚ) (placed : List PlacedSection)
      (zones : List GreenZone) (la : ℚ) (out : List PlacedSection × List GreenZone × ℚ),
      (∀ s ∈ rem, 0 ≤ meters_to_degrees (orientedSize angle s).1 c) →
      place_loop site_poly c params angle start_lat spacing_deg margin_deg green_buffer_deg
          rem cx placed zones la = some out →
      placed.Pairwise (sectionsCompatible spacing_deg) →
      (∀ e ∈ placed, e.poly.maxx ≤ cx - spacing_deg) →
      out.1.Pairwise (sectionsCompatible spacing_deg) := by
  intro rem
  induction rem with
  | nil =>
    intro cx placed zones la out _ h hpw _
    simp only [place_loop, Option.some.injEq] at h
    subst h
    exact hpw
  | cons sec rest ih =>
    intro cx placed zones la out hw h hpw hinv
    have hw0 : 0 ≤ meters_to_degrees (orientedSize angle sec).1 c :=
      hw sec (List.mem_cons_self sec rest)
    simp only [place_loop] at h
    split at h
    · rename_i hvalid
      refine ih _ _ _ _ out (fun s hs => hw s (List.mem_cons_of_mem sec hs)) h ?_ ?_
      · refine List.pairwise_append.2 ⟨hpw, List.pairwise_singleton _ _, ?_⟩
        intro e he x hx
        rcases List.mem_singleton.1 hx with rfl
        constructor
        · rw [Box.intersects_comm]
          exact is_valid_placement_no_overlap hvalid e he
        · have hmaxx := hinv e he
          have hdx : spacing_deg ≤
              max 0 (max (cx - e.poly.maxx)
                (e.poly.minx - (cx + meters_to_degrees (orientedSize angle sec).1 c))) :=
            le_trans (by linarith) (le_trans (le_max_left _ _) (le_max_right 0 _))
          calc spacing_deg ^ 2 ≤ (max 0 (max (cx - e.poly.maxx)
                (e.poly.minx - (cx + meters_to_degrees (orientedSize angle sec).1 c)))) ^ 2 :=
              pow_le_pow_left₀ hsp hdx 2
            _ ≤ boxDistSq e.poly ⟨cx, start_lat,
                cx + meters_to_degrees (orientedSize angle sec).1 c,
                start_lat + meters_to_degrees (orientedSize angle sec).2 c⟩ :=
              le_add_of_nonneg_right (sq_nonneg _)
      · intro e he
        rcases List.mem_append.1 he with he | he
        · have := hinv e he
          linarith
        · rcases List.mem_singleton.1 he with rfl
          show cx + meters_to_degrees (orientedSize angle sec).1 c ≤ _
          linarith
    · cases h

theorem try_place_combination_pairwise (site_poly : List Pt) (c cK : ℚ)
    (combination : List SectionType)
    (angle start_lon start_lat spacing_deg margin_deg green_buffer_deg : ℚ)
    (params : Params) (p : Placement) (hsp : 0 ≤ spacing_deg)
    (hw : ∀ s ∈ combination, 0 ≤ meters_to_degrees (orientedSize angle s).1 c)
    (h : try_place_combination site_poly c cK combination angle start_lon start_lat
        spacing_deg margin_deg green_buffer_deg params = some p) :
    p.sections.Pairwise (sectionsCompatible spacing_deg) := by
  unfold try_place_combination at h
  split at h
  · cases h
  · rename_i placed zones living heq
    split at h
    · cases h
    · simp only [Option.some.injEq] at h
      subst h
      exact place_loop_pairwise site_poly c params angle start_lat spacing_deg margin_deg
        green_buffer_deg hsp combination start_lon [] [] 0 ⟨placed, zones, living⟩ hw heq
        List.Pairwise.nil (by intro e he; cases he)

theorem place_loop_zone_hit_mono (site_poly : List Pt) (c : ℚ) (params : Params)
    (angle start_lat spacing_deg margin_deg green_buffer_deg : ℚ) :
    ∀ (rem : List SectionType) (cx : ℚ) (placed : List PlacedSection)
      (zones : List GreenZone) (la : ℚ) (out : List PlacedSection × List GreenZone × ℚ),
      place_loop site_poly c params angle start_lat spacing_deg margin_deg green_buffer_deg
          rem cx placed zones la = some out →
      (∃ z ∈ zones, ∃ sec ∈ placed, zoneIntersectsBox z sec.poly = true) →
      ∃ z ∈ out.2.1, ∃ sec ∈ out.1, zoneIntersectsBox z sec.poly = true := by
  intro rem
  induction rem with
  | nil =>
    intro cx placed zones la out h hbad
    simp only [place_loop, Option.some.injEq] at h
    subst h
    exact hbad
  | cons sec rest ih =>
    intro cx placed zones la out h hbad
    rcases hbad with ⟨z, hz, s, hs, hint⟩
    simp only [place_loop] at h
    repeat' split at h
    all_goals first
      | cases h
      | · refine ih _ _ _ _ out h ⟨z, ?_, s, List.mem_append_left _ hs, hint⟩
          first
            | exact List.mem_append_left _ hz
            | exact hz

theorem place_loop_green_zone_bad (site_poly : List Pt) (c : ℚ) (params : Params)
    (angle start_lat spacing_deg margin_deg green_buffer_deg : ℚ)
    (hflag : params.green_zones = true) (hmg : 0 ≤ margin_deg) :
    ∀ (rem : List SectionType) (cx : ℚ) (placed : List PlacedSection)
      (zones : List GreenZone) (la : ℚ) (out : List PlacedSection × List GreenZone × ℚ),
      place_loop site_poly c params angle start_lat spacing_deg margin_deg green_buffer_deg
          rem cx placed zones la = some out →
      (∃ s ∈ rem, s.ty = SType.living ∨ s.ty = SType.social) →
      ∃ z ∈ out.2.1, ∃ sec ∈ out.1, zoneIntersectsBox z sec.poly = true := by
  intro rem
  induction rem with
  | nil =>
    intro cx placed zones la out _ hsec
    rcases hsec with ⟨s, hs, _⟩
    cases hs
  | cons sec rest ih =>
    intro cx placed zones la out h hsec
    simp only [place_loop] at h
    split at h
    · rename_i hvalid
      rcases hsec with ⟨s, hs, hty⟩
      rcases List.mem_cons.1 hs with rfl | hs2
      · have hcond : (params.green_zones && (s.ty == SType.living || s.ty == SType.social)) = true := by
          rcases hty with hty | hty <;> simp [hflag, hty]
        rw [if_pos hcond] at h
        have hwf := siteContainsBox_wellformed (is_valid_placement_contains hvalid)
        have hx : (⟨cx, start_lat, cx + meters_to_degrees (orientedSize angle s).1 c,
            start_lat + meters_to_degrees (orientedSize angle s).2 c⟩ : Box).minx ≤
            cx + meters_to_degrees (orientedSize angle s).1 c := by
          dsimp [Box.shrink] at hwf
          show cx ≤ _
          linarith [hwf.1]
        have hy : start_lat ≤ start_lat + meters_to_degrees (orientedSize angle s).2 c := by
          dsimp [Box.shrink] at hwf
          linarith [hwf.2]
        refine place_loop_zone_hit_mono site_poly c params angle start_lat spacing_deg margin_deg
          green_buffer_deg _ _ _ _ _ out h
          ⟨_, List.mem_append_right _ (List.mem_singleton.2 rfl),
            _, List.mem_append_right _ (List.mem_singleton.2 rfl), ?_⟩
        simp only [zoneIntersectsBox, decide_eq_true_eq]
        rw [boxDistSq_self _ hx hy]
        exact sq_nonneg _
      · split at h
        · exact ih _ _ _ _ out h ⟨s, hs2, hty⟩
        · exact ih _ _ _ _ out h ⟨s, hs2, hty⟩
    · cases h

theorem validate_green_zones_false {zones : List GreenZone} {secs : List PlacedSection}
    {site_poly : List Pt}
    (h : ∃ z ∈ zones, ∃ s ∈ secs, zoneIntersectsBox z s.poly = true) :
    validate_green_zones zones secs site_poly = false := by
  rcases h with ⟨z, hz, s, hs, hint⟩
  have h1 : secs.all (fun t => !zones.any fun z => zoneIntersectsBox z t.poly) = false := by
    rw [Bool.eq_false_iff]
    intro hall
    rw [List.all_eq_true] at hall
    have h2 := hall s hs
    rw [Bool.not_eq_true'] at h2
    have h3 : ¬(zones.any fun z => zoneIntersectsBox z s.poly) = true := by simp [h2]
    exact h3 (List.any_eq_true.2 ⟨z, hz, hint⟩)
  simp [validate_green_zones, h1]

theorem search_with_combinations_prop (site_poly : List Pt)
    (all_combinations : List (List SectionType)) (params : Params) (c cK : ℚ)
    (ls : List Placement) (Q : Placement → Prop)
    (hstep : ∀ angle comb, comb ∈ all_combinations → ∀ lon lat p,
      try_place_combination site_poly c cK comb angle lon lat
        (meters_to_degrees params.spacing c) (meters_to_degrees params.margin c)
        (meters_to_degrees params.green_buffer c) params = some p → Q p)
    (h : search_with_combinations site_poly all_combinations params c cK = .ok ls) :
    ∀ l ∈ ls, Q l := by
  unfold search_with_combinations at h
  refine search_combos_prop site_poly c cK params _ _ _ _ _ _ _ _ _ Q _ [] ls ?_ (by simp) h
  intro angle comb hmem lon lat p hp
  rcases List.mem_flatMap.1 hmem with ⟨a, _, hpair⟩
  rcases List.mem_map.1 hpair with ⟨comb2, hcomb2, heq⟩
  cases heq
  exact hstep angle comb hcomb2 lon lat p hp

/-- The scoring function in closed form: the green term is counted twice and
the efficiency weight never reaches the result. -/
theorem calculate_score_closed_form (living_area green_area efficiency : ℚ) (params : Params) :
    calculate_score living_area green_area efficiency params =
      living_area * params.living_weight + 2 * (green_area * params.green_weight) := by
  unfold calculate_score
  ring

/-! Claim theorems. -/

/-- C1: the composite score is NOT `w_living·livingArea + w_green·greenArea +
w_efficiency·efficiency`.  At livingArea = greenArea = efficiency = 1 with the
default weights (0.5, 0.3, 0.2), `calculate_score` returns 0.5 + 0.3 + 0.3 =
1.1 — the green term is added twice and the efficiency term dropped — while
the claimed linear form evaluates to 1.0. -/
theorem C1_score_doubles_green_drops_efficiency :
    calculate_score 1 1 1 baseParams = 11 / 10 ∧
      1 * baseParams.living_weight + 1 * baseParams.green_weight +
        1 * baseParams.efficiency_weight = 1 ∧
      (11 / 10 : ℚ) ≠ 1 := by
  refine ⟨?_, ?_, ?_⟩ <;> with_unfolding_all decide

/-- C2 counterexample: on the convex hexagonal parcel `hexSite` with margin
10 m, the pipeline (with the combination generator modelled from its
docstring; the shipped generator raises `TypeError`, see
`C10_generate_combinations_raises`) returns a layout one of whose rectangles
does not lie within the parcel eroded by the margin parameter: near the 45°
edge the validator's `contains(site, rect.buffer(-margin/2))` check only
enforces about half the required clearance. -/
theorem C2_containment_counterexample :
    ((calculate_optimal_placements_fixed hexSite [zhS] wideParams 1 0).toOption.getD []).any
      (fun l => l.sections.any fun sd =>
        !boxInErode hexSite (meters_to_degrees wideParams.margin 1) sd.poly) = true := by
  with_unfolding_all decide

/-- C2 amended: every placement of every Layout the pipeline returns satisfies
the check the code actually enforces — the placement's rectangle negatively
buffered by margin/2 (`poly.buffer(-margin/2)`) lies within the parcel
polygon; for rectangular parcels this equals containment in the parcel eroded
by margin/2, not by margin. -/
theorem C2_half_margin_containment (site_poly : List Pt) (sections : List SectionType)
    (params : Params) (c cK : ℚ) :
    ((calculate_optimal_placements_fixed site_poly sections params c cK).toOption.getD []).all
      (fun l => l.sections.all fun sd =>
        siteContainsBox site_poly
          (sd.poly.shrink (meters_to_degrees params.margin c / 2))) = true := by
  rcases hres : calculate_optimal_placements_fixed site_poly sections params c cK with e | ls
  · rfl
  · rw [List.all_eq_true]
    intro l hl
    rw [List.all_eq_true]
    exact search_with_combinations_prop site_poly _ params c cK ls
      (fun l => ∀ sd ∈ l.sections, siteContainsBox site_poly
        (sd.poly.shrink (meters_to_degrees params.margin c / 2)) = true)
      (fun angle comb _ lon lat p hp =>
        try_place_combination_contains site_poly c cK comb angle lon lat _ _ _ params p hp)
      hres l hl

/-- C3: `calculate_optimal_placements` cannot return a descending-sorted
top-K list for any non-empty section list — on a well-formed parcel with one
selected section it raises `TypeError` inside `generate_all_combinations`
before any layout is built, scored or sorted. -/
theorem C3_type_error_before_sorting :
    calculate_optimal_placements sqSite [zhS] baseParams 1 0 = Except.error PyErr.typeError :=
  rfl

/-- C4: every Layout returned by the pipeline (with the docstring-modelled
combination generator) has pairwise compatible sections: the rectangles do not
intersect and their squared distance is at least `spacing_deg²`, where
`spacing_deg = meters_to_degrees(spacing, c)` is the converted spacing the
code works in.  `sectionsCompatible` is symmetric (`Box.intersects_comm`,
`boxDistSq_comm`), so `Pairwise` covers every unordered pair. -/
theorem C4_pairwise_no_overlap_spacing (site_poly : List Pt) (sections : List SectionType)
    (params : Params) (c cK : ℚ) (hsp : 0 ≤ params.spacing) (hc : 0 < c)
    (hsz : ∀ s ∈ sections, 0 ≤ s.w ∧ 0 ≤ s.h) :
    ((calculate_optimal_placements_fixed site_poly sections params c cK).toOption.getD []).all
      (fun l => decide (l.sections.Pairwise
        (sectionsCompatible (meters_to_degrees params.spacing c)))) = true := by
  rcases hres : calculate_optimal_placements_fixed site_poly sections params c cK with e | ls
  · rfl
  · rw [List.all_eq_true]
    intro l hl
    rw [decide_eq_true_eq]
    revert l hl
    have hs0 : 0 ≤ meters_to_degrees params.spacing c := by
      unfold meters_to_degrees
      exact div_nonneg hsp (mul_nonneg (by norm_num) hc.le)
    exact search_with_combinations_prop site_poly _ params c cK ls _
      (fun angle comb hcomb lon lat p hp =>
        try_place_combination_pairwise site_poly c cK comb angle lon lat _ _ _ params p hs0
          (by
            intro s hs
            have hwh := hsz s (generate_all_combinations_fixed_mem hcomb hs)
            have h1 : 0 ≤ (orientedSize angle s).1 := by
              unfold orientedSize
              split
              · exact hwh.1
              · exact hwh.2
            unfold meters_to_degrees
            exact div_nonneg h1 (mul_nonneg (by norm_num) hc.le))
          hp) hres

/-- C4 witness: on the 70×70 m parcel with a living and a parking module the
early return yields exactly one Layout (of two placed modules, disjoint and
5 m apart), and it satisfies the pairwise-compatibility conclusion. -/
theorem C4_pairwise_witness :
    (0 ≤ oneParams.spacing) ∧ ((0 : ℚ) < 1) ∧
      (∀ s ∈ [zhS, parkP], 0 ≤ s.w ∧ 0 ≤ s.h) ∧
      ((calculate_optimal_placements_fixed sq70Site [zhS, parkP] oneParams 1 0).toOption.getD
        []).length = 1 ∧
      ((calculate_optimal_placements_fixed sq70Site [zhS, parkP] oneParams 1 0).toOption.getD
        []).all (fun l => decide (l.sections.Pairwise
          (sectionsCompatible (meters_to_degrees oneParams.spacing 1)))) = true := by
  refine ⟨by with_unfolding_all decide, by with_unfolding_all decide,
    by with_unfolding_all decide, by with_unfolding_all decide, ?_⟩
  exact C4_pairwise_no_overlap_spacing sq70Site [zhS, parkP] oneParams 1 0
    (by with_unfolding_all decide) (by with_unfolding_all decide)
    (by with_unfolding_all decide)

/-- C5: with zero feasible layouts (a 10×10 m parcel cannot fit an 18×18 m
module) the pipeline does not return an empty ranked list: it raises
`TypeError` first.  The defect-bypassed pipeline does return the claimed
`.ok []`. -/
theorem C5_zero_feasible_raises_not_empty :
    calculate_optimal_placements tinySite [zhS] baseParams 1 0 = Except.error PyErr.typeError ∧
      calculate_optimal_placements_fixed tinySite [zhS] baseParams 1 0 = Except.ok [] := by
  constructor
  · rfl
  · with_unfolding_all decide

/-- C6: a parcel with fewer than 3 coordinate pairs is rejected at module
level before any computation (`st.error` + `st.stop`), so the request fails
with the `InvalidGeometry`-style error and zero Layouts are produced. -/
theorem C6_short_parcel_invalid_geometry (coords : List Pt) (sections : List SectionType)
    (params : Params) (c cK : ℚ) (h : coords.length < 3) :
    run_request coords sections params c cK = Except.error RequestError.invalidGeometry := by
  unfold run_request
  rw [if_pos h]

/-- C6 witness: a 2-point "polygon" is rejected. -/
theorem C6_short_parcel_witness :
    ([(⟨0, 0⟩ : Pt), ⟨mDeg, 0⟩].length < 3) ∧
      run_request [⟨0, 0⟩, ⟨mDeg, 0⟩] [zhS] baseParams 1 0 =
        Except.error RequestError.invalidGeometry :=
  ⟨by decide, C6_short_parcel_invalid_geometry _ _ _ _ _ (by decide)⟩

/-- C7: adding exclusion lines never makes a placement feasible: any placement
valid under `red_lines ++ extra` is valid under `red_lines` alone, so the set
of feasible candidates with an extra red line is a subset of the set
without it. -/
theorem C7_exclusion_lines_monotone (poly : Box) (site_poly : List Pt)
    (existing_sections : List PlacedSection) (margin : ℚ) (red_lines extra : List Box)
    (h : is_valid_placement poly site_poly existing_sections margin (red_lines ++ extra) = true) :
    is_valid_placement poly site_poly existing_sections margin red_lines = true := by
  simp only [is_valid_placement, Bool.and_eq_true, List.all_append] at h ⊢
  exact ⟨⟨h.1.1, h.1.2.1⟩, h.2⟩

/-- C7 witness: a placement feasible with a bisecting red line added is
feasible without it. -/
theorem C7_exclusion_lines_witness :
    is_valid_placement ⟨10 * mDeg, -10 * mDeg, 28 * mDeg, 8 * mDeg⟩ sqSite [] (10 * mDeg)
        ([] ++ [⟨35 * mDeg, -20 * mDeg, 35 * mDeg, 20 * mDeg⟩]) = true ∧
      is_valid_placement ⟨10 * mDeg, -10 * mDeg, 28 * mDeg, 8 * mDeg⟩ sqSite [] (10 * mDeg)
        [] = true := by
  have h : is_valid_placement ⟨10 * mDeg, -10 * mDeg, 28 * mDeg, 8 * mDeg⟩ sqSite [] (10 * mDeg)
      ([] ++ [⟨35 * mDeg, -20 * mDeg, 35 * mDeg, 20 * mDeg⟩]) = true := by
    with_unfolding_all decide
  exact ⟨h, C7_exclusion_lines_monotone _ _ _ _ _ _ h⟩

/-- C8: the planar/geographic round trip is the exact identity over exact
rationals (hence within any tolerance, in particular ε ≈ 1e-9) whenever the
reference-latitude cosine is non-zero. -/
theorem C8_roundtrip_exact (p : Pt) (c : ℚ) (hc : c ≠ 0) :
    toGeographic (toPlanar p c) c = p := by
  have h1 : (111320 : ℚ) * c ≠ 0 := mul_ne_zero (by norm_num) hc
  cases p with
  | mk x y =>
    unfold toGeographic toPlanar meters_to_degrees
    congr 1
    · exact mul_div_cancel_right₀ x h1
    · exact mul_div_cancel_right₀ y h1

/-- C8 witness: the round trip at a concrete point near Moscow with reference
cosine 1. -/
theorem C8_roundtrip_witness :
    ((1 : ℚ) ≠ 0) ∧
      toGeographic (toPlanar ⟨3753 / 100, 5579 / 100⟩ 1) 1 = ⟨3753 / 100, 5579 / 100⟩ :=
  ⟨by with_unfolding_all decide, C8_roundtrip_exact _ _ (by with_unfolding_all decide)⟩

/-- C9: with green zones enabled and at least one living/social section in the
combination, `try_place_combination` returns `none` for every parcel, anchor
position and angle: each green zone is a buffer of a placed section's own
rectangle, which that section's rectangle always touches, so
`validate_green_zones` always rejects.  (`0 ≤ margin_deg` reflects the
non-negative margin slider; it guarantees a validly placed box is
non-degenerate.) -/
theorem C9_green_zones_always_none (site_poly : List Pt) (c cK : ℚ)
    (combination : List SectionType)
    (angle start_lon start_lat spacing_deg margin_deg green_buffer_deg : ℚ) (params : Params)
    (hflag : params.green_zones = true) (hmg : 0 ≤ margin_deg)
    (hsec : ∃ s ∈ combination, s.ty = SType.living ∨ s.ty = SType.social) :
    try_place_combination site_poly c cK combination angle start_lon start_lat
      spacing_deg margin_deg green_buffer_deg params = none := by
  unfold try_place_combination
  split
  · rfl
  · rename_i placed zones living heq
    have hbad := place_loop_green_zone_bad site_poly c params angle start_lat spacing_deg
      margin_deg green_buffer_deg hflag hmg combination start_lon [] [] 0
      ⟨placed, zones, living⟩ heq hsec
    have hval : validate_green_zones zones placed site_poly = false :=
      validate_green_zones_false hbad
    simp [hflag, hval]

/-- C9 witness: a living section that would fit on the square parcel is
rejected once the green buffer is positive. -/
theorem C9_green_zones_witness :
    greenParams.green_zones = true ∧ (0 : ℚ) ≤ 10 * mDeg ∧
      (∃ s ∈ [zhS], s.ty = SType.living ∨ s.ty = SType.social) ∧
      try_place_combination sqSite 1 (355 / 113) [zhS] 0 (10 * mDeg) (-10 * mDeg)
        (5 * mDeg) (10 * mDeg) (5 * mDeg) greenParams = none := by
  refine ⟨rfl, by with_unfolding_all decide,
    ⟨zhS, List.mem_singleton.2 rfl, Or.inl rfl⟩, ?_⟩
  exact C9_green_zones_always_none sqSite 1 (355 / 113) [zhS] 0 (10 * mDeg) (-10 * mDeg)
    (5 * mDeg) (10 * mDeg) (5 * mDeg) greenParams rfl (by with_unfolding_all decide)
    ⟨zhS, List.mem_singleton.2 rfl, Or.inl rfl⟩

/-- C10: for every non-empty section list, `generate_all_combinations` raises
`TypeError` (it hashes tuples of unhashable dicts), and consequently
`calculate_optimal_placements` propagates the same error for every parcel and
parameter set: the error branch is always reachable at the public entry
point. -/
theorem C10_generate_combinations_raises (site_poly : List Pt) (sections : List SectionType)
    (params : Params) (c cK : ℚ) (h : sections ≠ []) :
    generate_all_combinations sections = Except.error PyErr.typeError ∧
      calculate_optimal_placements site_poly sections params c cK =
        Except.error PyErr.typeError := by
  cases sections with
  | nil => exact absurd rfl h
  | cons s rest => exact ⟨rfl, rfl⟩

/-- C10 witness: the default single-section request raises. -/
theorem C10_generate_combinations_witness :
    ([zhS] : List SectionType) ≠ [] ∧
      generate_all_combinations [zhS] = Except.error PyErr.typeError ∧
      calculate_optimal_placements hexSite [zhS] wideParams 1 0 =
        Except.error PyErr.typeError := by
  refine ⟨by with_unfolding_all decide, ?_⟩
  exact C10_generate_combinations_raises hexSite [zhS] wideParams 1 0
    (by with_unfolding_all decide)

end Viz
